import Mathlib

/-!
Verification of the frame-lifecycle / render-item / wave-update core of
`src/TexColumnsApp.cpp` (a D3D12 multiple-buffered renderer).

The C++ code is shallowly embedded: machine floats are modelled by `ℚ`
(the claims under scrutiny are structural, not about rounding), GPU
buffers by functions from slot indices to values, and the asynchronous
GPU timeline by an explicit completed-fence counter.  Wherever a
definition mirrors a specific source function, its doc comment names it.
-/

namespace TexColumns

/-- Source: `const int gNumFrameResources = 3;` (TexColumnsApp.cpp line 20). -/
def gNumFrameResources : Nat := 3

/-! ## Frame synchronization model (TexColumnsApp::Update lines 246-258,
TexColumnsApp::Draw lines 337-343)

`SyncState` models the CPU-visible synchronization state:
`currFrameResourceIndex` / `currentFence` are members of the app class,
`fences i` is `mFrameResources[i]->Fence`, and `completed` is the value
the fence object would report from `GetCompletedValue()`.  The GPU
timeline is modelled by letting `completed` advance by an arbitrary
amount `δ` per frame, never beyond `currentFence` (a fence value is only
reached after the corresponding `Signal` is queued and executed). -/

structure SyncState where
  currFrameResourceIndex : Nat
  fences : Nat → Nat
  currentFence : Nat
  completed : Nat

/-- Modelled from the spec: `FrameResource::Fence` is initialized to the
sentinel `0` ("never submitted"); `mCurrentFence` starts at `0`
(`FrameResource.h` / `d3dApp.h` are not under `src/`, but the spec fixes
zero as the never-submitted sentinel). -/
def initSync : SyncState :=
  { currFrameResourceIndex := 0, fences := fun _ => 0, currentFence := 0, completed := 0 }

/-- Source: `mCurrFrameResourceIndex = (mCurrFrameResourceIndex + 1) % gNumFrameResources;`
(Update, line 250). -/
def nextIndex (s : SyncState) : Nat :=
  (s.currFrameResourceIndex + 1) % gNumFrameResources

/-- Source: the wait condition
`mCurrFrameResource->Fence != 0 && mFence->GetCompletedValue() < mCurrFrameResource->Fence`
(Update, line 252). -/
def acquireWaits (s : SyncState) : Bool :=
  s.fences (nextIndex s) != 0 && s.completed < s.fences (nextIndex s)

/-- Source: the frame-resource acquisition step of `TexColumnsApp::Update`
(lines 246-258): advance the cursor modulo `gNumFrameResources`; if the
stored fence is nonzero and not yet completed, block on
`SetEventOnCompletion` / `WaitForSingleObject` until the completed value
reaches the stored fence (modelled by setting `completed` to exactly the
stored fence, the least value the wait can return at). -/
def acquire (s : SyncState) : SyncState :=
  { s with
    currFrameResourceIndex := nextIndex s
    completed := if acquireWaits s then s.fences (nextIndex s) else s.completed }

/-- Source: GPU progress between frames: `GetCompletedValue` can have
advanced arbitrarily, but never beyond the last queued `Signal` value
`mCurrentFence`. -/
def gpuProgress (d : Nat) (s : SyncState) : SyncState :=
  { s with completed := min (s.completed + d) s.currentFence }

/-- Source: the fence stamp at the end of `TexColumnsApp::Draw`
(lines 337-343): `mCurrFrameResource->Fence = ++mCurrentFence;` followed
by `mCommandQueue->Signal(mFence.Get(), mCurrentFence);`. -/
def drawStamp (s : SyncState) : SyncState :=
  { s with
    currentFence := s.currentFence + 1
    fences := fun j =>
      if j = s.currFrameResourceIndex then s.currentFence + 1 else s.fences j }

/-- One frame of the main loop: GPU progress, then `Update`'s acquisition
(the CPU-side reuse point), then `Draw`'s fence stamp. -/
def frame (d : Nat) (s : SyncState) : SyncState :=
  drawStamp (acquire (gpuProgress d s))

/-- Run the main loop over a list of per-frame GPU-progress amounts. -/
def runFrames : List Nat → SyncState → SyncState
  | [], s => s
  | d :: ds, s => runFrames ds (frame d s)

/-- Resource slot `i` has been stamped during the first `n` frames
(frames are 1-based; frame `t` stamps slot `t % 3`). -/
def stampedIn (n i : Nat) : Prop :=
  ∃ t, 0 < t ∧ t ≤ n ∧ t % gNumFrameResources = i

instance (n i : Nat) : Decidable (stampedIn n i) :=
  have h : Decidable (∃ t, t ∈ Finset.Icc 1 n ∧ t % gNumFrameResources = i) := inferInstance
  @decidable_of_iff _ _ (by
    unfold stampedIn
    simp only [Finset.mem_Icc]
    constructor
    · rintro ⟨t, ⟨h1, h2⟩, h3⟩
      exact ⟨t, by omega, by omega, h3⟩
    · rintro ⟨t, h1, h2, h3⟩
      exact ⟨t, ⟨by omega, by omega⟩, h3⟩) h

/-! ### Basic lemmas about the synchronization step -/

theorem acquire_fences (s : SyncState) : (acquire s).fences = s.fences := rfl

theorem acquire_index (s : SyncState) :
    (acquire s).currFrameResourceIndex = nextIndex s := rfl

/-- At the moment `Update` proceeds past the (possibly skipped) wait, the
device's completed value has reached the acquired resource's stored
fence. -/
theorem acquire_completed_ge (s : SyncState) :
    s.fences (nextIndex s) ≤ (acquire s).completed := by
  cases hb : acquireWaits s with
  | true => simp [acquire, hb]
  | false =>
    have hcond := hb
    simp only [acquireWaits, Bool.and_eq_false_iff, bne_eq_false_iff_eq,
      decide_eq_false_iff_not, not_lt] at hcond
    simp only [acquire, hb, Bool.false_eq_true, if_false]
    rcases hcond with h | h
    · simp [h]
    · exact h

/-- The invariant maintained by the frame loop after `n` frames. -/
def syncInv (n : Nat) (s : SyncState) : Prop :=
  s.currFrameResourceIndex = n % gNumFrameResources ∧
  s.currentFence = n ∧
  s.completed ≤ n ∧
  ∀ i, i < gNumFrameResources →
    s.fences i ≤ n ∧ (s.fences i = 0 ↔ ¬ stampedIn n i)

theorem syncInv_init : syncInv 0 initSync := by
  refine ⟨rfl, rfl, le_refl _, fun i _ => ⟨Nat.zero_le _, ?_⟩⟩
  simp only [initSync, true_iff]
  rintro ⟨t, ht0, htle, -⟩
  omega

theorem stampedIn_succ (n i : Nat) :
    stampedIn (n + 1) i ↔ stampedIn n i ∨ (n + 1) % gNumFrameResources = i := by
  constructor
  · rintro ⟨t, ht0, htle, htm⟩
    rcases Nat.lt_or_ge t (n + 1) with h | h
    · exact Or.inl ⟨t, ht0, by omega, htm⟩
    · have : t = n + 1 := by omega
      subst this
      exact Or.inr htm
  · rintro (⟨t, ht0, htle, htm⟩ | h)
    · exact ⟨t, ht0, by omega, htm⟩
    · exact ⟨n + 1, by omega, le_refl _, h⟩

theorem syncInv_step (n : Nat) (d : Nat) (s : SyncState) (h : syncInv n s) :
    syncInv (n + 1) (frame d s) := by
  obtain ⟨hidx, hcf, hcomp, hfen⟩ := h
  have hmod : (n % gNumFrameResources + 1) % gNumFrameResources =
      (n + 1) % gNumFrameResources := by
    simp only [gNumFrameResources]
    omega
  have hlt : (n + 1) % gNumFrameResources < gNumFrameResources :=
    Nat.mod_lt _ (by simp [gNumFrameResources])
  refine ⟨?_, ?_, ?_, ?_⟩
  · simp only [frame, drawStamp, acquire, gpuProgress, nextIndex, hidx, hmod]
  · simp only [frame, drawStamp, acquire, gpuProgress, hcf]
  · simp only [frame, drawStamp, acquire, gpuProgress, nextIndex, hidx, hmod, hcf]
    split
    · exact (hfen _ hlt).1.trans (by omega)
    · omega
  · intro i hi
    have hfval : (frame d s).fences i =
        if i = (n + 1) % gNumFrameResources then n + 1 else s.fences i := by
      simp only [frame, drawStamp, acquire, gpuProgress, nextIndex, hidx, hmod, hcf]
    rw [hfval]
    by_cases hieq : i = (n + 1) % gNumFrameResources
    · subst hieq
      simp only [if_pos rfl]
      refine ⟨le_refl _, ?_⟩
      have : stampedIn (n + 1) ((n + 1) % gNumFrameResources) :=
        ⟨n + 1, by omega, le_refl _, rfl⟩
      simp [this]
    · simp only [if_neg hieq]
      refine ⟨le_trans (hfen i hi).1 (by omega), ?_⟩
      rw [(hfen i hi).2, stampedIn_succ]
      constructor
      · intro hn
        rintro (hs | hs)
        · exact hn hs
        · exact hieq hs.symm
      · intro hns hs
        exact hns (Or.inl hs)

theorem syncInv_run (ds : List Nat) :
    ∀ (n : Nat) (s : SyncState), syncInv n s →
      syncInv (n + ds.length) (runFrames ds s) := by
  induction ds with
  | nil => intro n s h; simpa using h
  | cons d ds ih =>
    intro n s h
    have := ih (n + 1) (frame d s) (syncInv_step n d s h)
    simpa [runFrames, Nat.add_assoc, Nat.add_comm 1 ds.length] using this

theorem syncInv_run_init (ds : List Nat) :
    syncInv ds.length (runFrames ds initSync) := by
  simpa using syncInv_run ds 0 initSync syncInv_init

/-- C1: In every frame cycle, `Update` selects the frame resource by
advancing the cursor modulo `gNumFrameResources`; at the point the
resource is handed over for reuse (allocator reset, buffer overwrites)
the device's completed fence value is at least the resource's stored
fence value; and the blocking wait is performed exactly when the stored
fence value is nonzero and not yet reached by the completed value (the
wait is skipped for the zero sentinel or an already-satisfied fence). -/
theorem frame_resource_acquisition_safe (s : SyncState) :
    (acquire s).currFrameResourceIndex =
      (s.currFrameResourceIndex + 1) % gNumFrameResources ∧
    s.fences (nextIndex s) ≤ (acquire s).completed ∧
    (acquireWaits s = true ↔
      (s.fences (nextIndex s) ≠ 0 ∧ s.completed < s.fences (nextIndex s))) := by
  refine ⟨acquire_index s, acquire_completed_ge s, ?_⟩
  simp [acquireWaits]

/-- C10: Starting from the initial state (counter `0`, all frame-resource
fences at the zero sentinel), the fence value stamped on the current
frame resource during frame number `n + 1` (i.e. after a history of `n`
frames) is exactly `n + 1`: stamped values are strictly increasing
across frames and always at least `1`.  Consequently a stored fence of
`0` on a frame-resource slot holds exactly when that slot has never been
submitted, so the zero-sentinel skip never conflates a real submission
with the never-submitted state. -/
theorem fence_stamps_increasing_and_zero_sentinel (ds : List Nat) (d : Nat) :
    (runFrames ds initSync).currentFence = ds.length ∧
    (frame d (runFrames ds initSync)).fences
        ((ds.length + 1) % gNumFrameResources) = ds.length + 1 ∧
    0 < (frame d (runFrames ds initSync)).fences
        ((ds.length + 1) % gNumFrameResources) ∧
    (∀ i, i < gNumFrameResources →
      ((runFrames ds initSync).fences i = 0 ↔ ¬ stampedIn ds.length i)) := by
  have h := syncInv_run_init ds
  obtain ⟨hidx, hcf, hcomp, hfen⟩ := h
  have hstep := syncInv_step ds.length d (runFrames ds initSync) ⟨hidx, hcf, hcomp, hfen⟩
  obtain ⟨hidx1, hcf1, hcomp1, hfen1⟩ := hstep
  have hlt : (ds.length + 1) % gNumFrameResources < gNumFrameResources :=
    Nat.mod_lt _ (by simp [gNumFrameResources])
  have hstamped : stampedIn (ds.length + 1) ((ds.length + 1) % gNumFrameResources) :=
    ⟨ds.length + 1, by omega, le_refl _, rfl⟩
  have hne : (frame d (runFrames ds initSync)).fences
      ((ds.length + 1) % gNumFrameResources) ≠ 0 := by
    intro h0
    exact ((hfen1 _ hlt).2.mp h0) hstamped
  refine ⟨hcf, ?_, ?_, fun i hi => (hfen i hi).2⟩
  · -- the stamped slot holds exactly ds.length + 1
    have hle := (hfen1 _ hlt).1
    -- compute the stamp directly from the frame definition
    have : (frame d (runFrames ds initSync)).fences
        ((ds.length + 1) % gNumFrameResources) =
        (runFrames ds initSync).currentFence + 1 := by
      simp only [frame, drawStamp, acquire, gpuProgress, nextIndex, hidx]
      rw [if_pos]
      simp only [gNumFrameResources]
      omega
    rw [this, hcf]
  · omega

theorem fence_stamps_zero_sentinel_witness :
    1 < gNumFrameResources ∧
    ((runFrames [0, 0, 0, 0] initSync).fences 1 = 0 ↔ ¬ stampedIn 4 1) :=
  ⟨by decide,
   (fence_stamps_increasing_and_zero_sentinel [0, 0, 0, 0] 0).2.2.2 1 (by decide)⟩

/-! ## Dirty-tracking update pass
(TexColumnsApp::UpdateObjectCBs lines 435-457,
TexColumnsApp::UpdateMaterialCBs lines 459-483,
TexColumnsApp::AnimateMaterials lines 411-433)

`XMFLOAT4X4` matrices are modelled as `Fin 4 → Fin 4 → ℚ`; the claims
about the update pass are structural (which slot of which buffer holds
which entity's data), so the exact float arithmetic is irrelevant and
`ℚ` entries are faithful.  `UploadBuffer<T>` is modelled as a total map
from slot index to element, `CopyData(i, v)` as a pointwise update. -/

/-- `XMFLOAT4X4`, with exact rational entries. -/
def Mat4 : Type := Fin 4 → Fin 4 → ℚ

/-- `XMMatrixTranspose`. -/
def transpose4 (m : Mat4) : Mat4 := fun i j => m j i

/-- Source: `Material` (declared in Common/d3dUtil.h; the fields below
are exactly the ones TexColumnsApp.cpp reads and writes). -/
structure Material where
  matCBIndex : Nat
  diffuseSrvHeapIndex : Nat
  numFramesDirty : Int
  diffuseAlbedo : ℚ × ℚ × ℚ × ℚ
  fresnelR0 : ℚ × ℚ × ℚ
  roughness : ℚ
  matTransform : Mat4

/-- Source: `struct RenderItem` (TexColumnsApp.cpp lines 24-55).  The
`Mat`/`Geo` pointers are embedded by value (`geoVB`/`geoIB` stand for
the geometry's vertex/index buffer view handles); registries outlive
and are not mutated through render items, so this is faithful. -/
structure RenderItem where
  world : Mat4
  texTransform : Mat4
  numFramesDirty : Int
  objCBIndex : Nat
  mat : Material
  geoVB : Nat
  geoIB : Nat
  primitiveType : Nat
  indexCount : Nat
  startIndexLocation : Nat
  baseVertexLocation : Int

/-- Source: `struct ObjectConstants` (FrameResource.h): world and
tex-transform, stored transposed. -/
structure ObjectConstants where
  world : Mat4
  texTransform : Mat4

/-- Source: `struct MaterialConstants` (d3dUtil.h). -/
structure MaterialConstants where
  diffuseAlbedo : ℚ × ℚ × ℚ × ℚ
  fresnelR0 : ℚ × ℚ × ℚ
  roughness : ℚ
  matTransform : Mat4

/-- The object constants UpdateObjectCBs computes for a render item:
`XMStoreFloat4x4(&objConstants.World, XMMatrixTranspose(world))` etc. -/
def objConstantsOf (e : RenderItem) : ObjectConstants :=
  ⟨transpose4 e.world, transpose4 e.texTransform⟩

/-- The material constants UpdateMaterialCBs computes for a material. -/
def matConstantsOf (m : Material) : MaterialConstants :=
  ⟨m.diffuseAlbedo, m.fresnelR0, m.roughness, transpose4 m.matTransform⟩

/-- Modelled from the spec: `UploadBuffer<T>::CopyData(i, v)`
(Common/UploadBuffer.h is not under src/): write element `v` into slot
`i` of the buffer, leaving every other slot unchanged. -/
def copyData {α : Type} (cb : Nat → α) (i : Nat) (v : α) : Nat → α :=
  fun j => if j = i then v else cb j

/-- Source: the loop body of `TexColumnsApp::UpdateObjectCBs`
(lines 435-457): for each render item in order, if its dirty counter is
positive, write its (transposed) constants into the current object
buffer at its fixed slot and decrement the counter. -/
def updateObjectCBs :
    List RenderItem → (Nat → ObjectConstants) →
      List RenderItem × (Nat → ObjectConstants)
  | [], cb => ([], cb)
  | e :: es, cb =>
    if 0 < e.numFramesDirty then
      let r := updateObjectCBs es (copyData cb e.objCBIndex (objConstantsOf e))
      ({ e with numFramesDirty := e.numFramesDirty - 1 } :: r.1, r.2)
    else
      let r := updateObjectCBs es cb
      (e :: r.1, r.2)

/-- Source: the loop body of `TexColumnsApp::UpdateMaterialCBs`
(lines 459-483), the same dirty-counter policy against the material
buffer. -/
def updateMaterialCBs :
    List Material → (Nat → MaterialConstants) →
      List Material × (Nat → MaterialConstants)
  | [], cb => ([], cb)
  | m :: ms, cb =>
    if 0 < m.numFramesDirty then
      let r := updateMaterialCBs ms (copyData cb m.matCBIndex (matConstantsOf m))
      ({ m with numFramesDirty := m.numFramesDirty - 1 } :: r.1, r.2)
    else
      let r := updateMaterialCBs ms cb
      (m :: r.1, r.2)

/-- The per-item effect of one update pass on the item list. -/
def decObj (e : RenderItem) : RenderItem :=
  if 0 < e.numFramesDirty then { e with numFramesDirty := e.numFramesDirty - 1 } else e

/-- The per-material effect of one update pass on the material list. -/
def decMat (m : Material) : Material :=
  if 0 < m.numFramesDirty then { m with numFramesDirty := m.numFramesDirty - 1 } else m

/-- The CPU-side state the per-frame constant-buffer update acts on:
the render-item and material registries plus, for each of the
`gNumFrameResources` frame resources, its object and material constant
buffers. -/
structure CBState where
  currFrameResourceIndex : Nat
  objectCBs : Nat → Nat → ObjectConstants
  materialCBs : Nat → Nat → MaterialConstants
  items : List RenderItem
  materials : List Material

/-- Source: one per-frame constant-buffer update cycle: `Update`
advances `mCurrFrameResourceIndex` (line 250), then `UpdateObjectCBs`
and `UpdateMaterialCBs` run against the *current* frame resource's
buffers (lines 261-263). -/
def updatePass (s : CBState) : CBState :=
  let idx := (s.currFrameResourceIndex + 1) % gNumFrameResources
  let io := updateObjectCBs s.items (s.objectCBs idx)
  let mo := updateMaterialCBs s.materials (s.materialCBs idx)
  { currFrameResourceIndex := idx
    objectCBs := copyData s.objectCBs idx io.2
    materialCBs := copyData s.materialCBs idx mo.2
    items := io.1
    materials := mo.1 }

/-- `n` consecutive update passes with no intervening mutation. -/
def updatePassN : Nat → CBState → CBState
  | 0, s => s
  | n + 1, s => updatePassN n (updatePass s)

/-- Source: the mutation step of `TexColumnsApp::AnimateMaterials`
(lines 411-433): overwrite entries of the material's `MatTransform`
and set `NumFramesDirty = gNumFrameResources`. -/
def mutateMaterial (m : Material) (newMT : Mat4) : Material :=
  { m with matTransform := newMT, numFramesDirty := (gNumFrameResources : Int) }

/-! ### One-pass lemmas for the object buffer -/

theorem updateObjectCBs_fst (items : List RenderItem) (cb : Nat → ObjectConstants) :
    (updateObjectCBs items cb).1 = items.map decObj := by
  induction items generalizing cb with
  | nil => rfl
  | cons e es ih =>
    by_cases h : 0 < e.numFramesDirty
    · simp [updateObjectCBs, h, decObj, ih]
    · simp [updateObjectCBs, h, decObj, ih]

theorem updateObjectCBs_snd_untouched (items : List RenderItem)
    (cb : Nat → ObjectConstants) (slot : Nat)
    (h : ∀ e ∈ items, e.objCBIndex ≠ slot) :
    (updateObjectCBs items cb).2 slot = cb slot := by
  induction items generalizing cb with
  | nil => rfl
  | cons e es ih =>
    by_cases hd : 0 < e.numFramesDirty
    · simp only [updateObjectCBs, if_pos hd]
      rw [ih _ fun x hx => h x (List.mem_cons_of_mem _ hx)]
      simp [copyData, fun hs => h e (List.mem_cons_self _ _) hs,
        Ne.symm (h e (List.mem_cons_self _ _))]
    · simp only [updateObjectCBs, if_neg hd]
      exact ih _ fun x hx => h x (List.mem_cons_of_mem _ hx)

theorem updateObjectCBs_snd_written (items : List RenderItem)
    (cb : Nat → ObjectConstants) (e : RenderItem)
    (hmem : e ∈ items) (hd : 0 < e.numFramesDirty)
    (hnod : (items.map RenderItem.objCBIndex).Nodup) :
    (updateObjectCBs items cb).2 e.objCBIndex = objConstantsOf e := by
  induction items generalizing cb with
  | nil => cases hmem
  | cons a es ih =>
    rw [List.map_cons, List.nodup_cons] at hnod
    rcases List.mem_cons.mp hmem with rfl | hmem
    · simp only [updateObjectCBs, if_pos hd]
      rw [updateObjectCBs_snd_untouched]
      · simp [copyData]
      · intro x hx hs
        exact hnod.1 (hs ▸ List.mem_map_of_mem RenderItem.objCBIndex hx)
    · by_cases hda : 0 < a.numFramesDirty
      · simp only [updateObjectCBs, if_pos hda]
        exact ih _ hmem hnod.2
      · simp only [updateObjectCBs, if_neg hda]
        exact ih _ hmem hnod.2

/-! ### One-pass lemmas for the material buffer (same discipline) -/

theorem updateMaterialCBs_fst (mats : List Material) (cb : Nat → MaterialConstants) :
    (updateMaterialCBs mats cb).1 = mats.map decMat := by
  induction mats generalizing cb with
  | nil => rfl
  | cons m ms ih =>
    by_cases h : 0 < m.numFramesDirty
    · simp [updateMaterialCBs, h, decMat, ih]
    · simp [updateMaterialCBs, h, decMat, ih]

theorem updateMaterialCBs_snd_untouched (mats : List Material)
    (cb : Nat → MaterialConstants) (slot : Nat)
    (h : ∀ m ∈ mats, m.matCBIndex ≠ slot) :
    (updateMaterialCBs mats cb).2 slot = cb slot := by
  induction mats generalizing cb with
  | nil => rfl
  | cons m ms ih =>
    by_cases hd : 0 < m.numFramesDirty
    · simp only [updateMaterialCBs, if_pos hd]
      rw [ih _ fun x hx => h x (List.mem_cons_of_mem _ hx)]
      simp [copyData, Ne.symm (h m (List.mem_cons_self _ _))]
    · simp only [updateMaterialCBs, if_neg hd]
      exact ih _ fun x hx => h x (List.mem_cons_of_mem _ hx)

theorem updateMaterialCBs_snd_written (mats : List Material)
    (cb : Nat → MaterialConstants) (m : Material)
    (hmem : m ∈ mats) (hd : 0 < m.numFramesDirty)
    (hnod : (mats.map Material.matCBIndex).Nodup) :
    (updateMaterialCBs mats cb).2 m.matCBIndex = matConstantsOf m := by
  induction mats generalizing cb with
  | nil => cases hmem
  | cons a ms ih =>
    rw [List.map_cons, List.nodup_cons] at hnod
    rcases List.mem_cons.mp hmem with rfl | hmem
    · simp only [updateMaterialCBs, if_pos hd]
      rw [updateMaterialCBs_snd_untouched]
      · simp [copyData]
      · intro x hx hs
        exact hnod.1 (hs ▸ List.mem_map_of_mem Material.matCBIndex hx)
    · by_cases hda : 0 < a.numFramesDirty
      · simp only [updateMaterialCBs, if_pos hda]
        exact ih _ hmem hnod.2
      · simp only [updateMaterialCBs, if_neg hda]
        exact ih _ hmem hnod.2

/-! ### Pass-level lemmas -/

theorem decObj_objCBIndex (e : RenderItem) : (decObj e).objCBIndex = e.objCBIndex := by
  unfold decObj
  split <;> rfl

theorem objConstantsOf_decObj (e : RenderItem) :
    objConstantsOf (decObj e) = objConstantsOf e := by
  unfold decObj
  split <;> rfl

theorem decObj_dirty_pos (e : RenderItem) (h : 0 < e.numFramesDirty) :
    (decObj e).numFramesDirty = e.numFramesDirty - 1 := by
  unfold decObj
  rw [if_pos h]

theorem decMat_matCBIndex (m : Material) : (decMat m).matCBIndex = m.matCBIndex := by
  unfold decMat
  split <;> rfl

theorem matConstantsOf_decMat (m : Material) :
    matConstantsOf (decMat m) = matConstantsOf m := by
  unfold decMat
  split <;> rfl

theorem decMat_dirty_pos (m : Material) (h : 0 < m.numFramesDirty) :
    (decMat m).numFramesDirty = m.numFramesDirty - 1 := by
  unfold decMat
  rw [if_pos h]

theorem updatePass_curr (s : CBState) :
    (updatePass s).currFrameResourceIndex =
      (s.currFrameResourceIndex + 1) % gNumFrameResources := rfl

theorem updatePass_items (s : CBState) :
    (updatePass s).items = s.items.map decObj := by
  simp [updatePass, updateObjectCBs_fst]

theorem updatePass_materials (s : CBState) :
    (updatePass s).materials = s.materials.map decMat := by
  simp [updatePass, updateMaterialCBs_fst]

theorem updatePass_slotMap (s : CBState) :
    (updatePass s).items.map RenderItem.objCBIndex =
      s.items.map RenderItem.objCBIndex := by
  rw [updatePass_items, List.map_map]
  exact List.map_congr_left fun e _ => decObj_objCBIndex e

theorem updatePass_matSlotMap (s : CBState) :
    (updatePass s).materials.map Material.matCBIndex =
      s.materials.map Material.matCBIndex := by
  rw [updatePass_materials, List.map_map]
  exact List.map_congr_left fun m _ => decMat_matCBIndex m

/-- One update pass leaves every frame resource's object buffer other
than the current one untouched. -/
theorem updatePass_objectCBs_other (s : CBState) (j : Nat)
    (h : j ≠ (s.currFrameResourceIndex + 1) % gNumFrameResources) :
    (updatePass s).objectCBs j = s.objectCBs j := by
  simp [updatePass, copyData, h]

theorem updatePass_materialCBs_other (s : CBState) (j : Nat)
    (h : j ≠ (s.currFrameResourceIndex + 1) % gNumFrameResources) :
    (updatePass s).materialCBs j = s.materialCBs j := by
  simp [updatePass, copyData, h]

/-- One update pass writes a dirty item's constants into the current
frame resource's object buffer at the item's fixed slot. -/
theorem updatePass_objectCBs_write (s : CBState) (e : RenderItem)
    (hmem : e ∈ s.items) (hd : 0 < e.numFramesDirty)
    (hnod : (s.items.map RenderItem.objCBIndex).Nodup) :
    (updatePass s).objectCBs ((s.currFrameResourceIndex + 1) % gNumFrameResources)
      e.objCBIndex = objConstantsOf e := by
  simp only [updatePass, copyData, if_pos rfl]
  exact updateObjectCBs_snd_written _ _ _ hmem hd hnod

theorem updatePass_materialCBs_write (s : CBState) (m : Material)
    (hmem : m ∈ s.materials) (hd : 0 < m.numFramesDirty)
    (hnod : (s.materials.map Material.matCBIndex).Nodup) :
    (updatePass s).materialCBs ((s.currFrameResourceIndex + 1) % gNumFrameResources)
      m.matCBIndex = matConstantsOf m := by
  simp only [updatePass, copyData, if_pos rfl]
  exact updateMaterialCBs_snd_written _ _ _ hmem hd hnod

/-- Three consecutive update passes propagate a render item whose dirty
counter is `3` into all three frame resources' object buffers, leaving
its counter at `0` and decrementing it by exactly one per pass. -/
theorem objectCB_propagation (s : CBState) (e : RenderItem)
    (k : Nat) (hke : s.items[k]? = some e)
    (hd : e.numFramesDirty = 3)
    (hnod : (s.items.map RenderItem.objCBIndex).Nodup) :
    (∀ j, j < gNumFrameResources →
      (updatePassN 3 s).objectCBs j e.objCBIndex = objConstantsOf e) ∧
    ((updatePassN 3 s).items[k]?).map RenderItem.numFramesDirty = some 0 ∧
    (∀ p, p < 3 →
      ((updatePassN (p + 1) s).items[k]?).map RenderItem.numFramesDirty =
        some (3 - (p + 1) : Int)) := by
  have hmem : e ∈ s.items := List.getElem?_mem hke
  set c := s.currFrameResourceIndex with hc
  set s1 := updatePass s with hs1
  set s2 := updatePass s1 with hs2
  set s3 := updatePass s2 with hs3
  have hN3 : updatePassN 3 s = s3 := rfl
  have hN2 : updatePassN 2 s = s2 := rfl
  have hN1 : updatePassN 1 s = s1 := rfl
  -- item evolution through the passes
  have hke1 : s1.items[k]? = some (decObj e) := by
    rw [hs1, updatePass_items, List.getElem?_map, hke, Option.map_some']
  have hke2 : s2.items[k]? = some (decObj (decObj e)) := by
    rw [hs2, updatePass_items, List.getElem?_map, hke1, Option.map_some']
  have hke3 : s3.items[k]? = some (decObj (decObj (decObj e))) := by
    rw [hs3, updatePass_items, List.getElem?_map, hke2, Option.map_some']
  have hd1 : (decObj e).numFramesDirty = 2 := by
    rw [decObj_dirty_pos e (by omega), hd]
    norm_num
  have hd2 : (decObj (decObj e)).numFramesDirty = 1 := by
    rw [decObj_dirty_pos _ (by omega), hd1]
    norm_num
  have hd3 : (decObj (decObj (decObj e))).numFramesDirty = 0 := by
    rw [decObj_dirty_pos _ (by omega), hd2]
    norm_num
  have hmem1 : decObj e ∈ s1.items := by
    rw [hs1, updatePass_items]
    exact List.mem_map_of_mem decObj hmem
  have hmem2 : decObj (decObj e) ∈ s2.items := by
    rw [hs2, updatePass_items]
    exact List.mem_map_of_mem decObj hmem1
  have hnod1 : (s1.items.map RenderItem.objCBIndex).Nodup := by
    rw [hs1, updatePass_slotMap]
    exact hnod
  have hnod2 : (s2.items.map RenderItem.objCBIndex).Nodup := by
    rw [hs2, updatePass_slotMap]
    exact hnod1
  -- current-frame indices hit by the three passes
  have hc1 : s1.currFrameResourceIndex = (c + 1) % gNumFrameResources := rfl
  have hc2 : s2.currFrameResourceIndex =
      ((c + 1) % gNumFrameResources + 1) % gNumFrameResources := by
    rw [hs2, updatePass_curr, hc1]
  have hg : gNumFrameResources = 3 := rfl
  -- buffer writes performed by each pass
  have hw1 : s1.objectCBs ((c + 1) % gNumFrameResources) e.objCBIndex =
      objConstantsOf e :=
    updatePass_objectCBs_write s e hmem (by omega) hnod
  have hw2 : s2.objectCBs (((c + 1) % gNumFrameResources + 1) % gNumFrameResources)
      e.objCBIndex = objConstantsOf e := by
    have := updatePass_objectCBs_write s1 (decObj e) hmem1 (by omega) hnod1
    rw [hc1, decObj_objCBIndex, objConstantsOf_decObj] at this
    exact this
  have hw3 : s3.objectCBs
      ((((c + 1) % gNumFrameResources + 1) % gNumFrameResources + 1) % gNumFrameResources)
      e.objCBIndex = objConstantsOf e := by
    have := updatePass_objectCBs_write s2 (decObj (decObj e)) hmem2 (by omega) hnod2
    rw [hc2, decObj_objCBIndex, decObj_objCBIndex,
      objConstantsOf_decObj, objConstantsOf_decObj] at this
    exact this
  -- later passes do not touch earlier passes' buffers
  have hp21 : s2.objectCBs ((c + 1) % gNumFrameResources) =
      s1.objectCBs ((c + 1) % gNumFrameResources) := by
    apply updatePass_objectCBs_other
    rw [hc1, hg]
    omega
  have hp31 : s3.objectCBs ((c + 1) % gNumFrameResources) =
      s2.objectCBs ((c + 1) % gNumFrameResources) := by
    apply updatePass_objectCBs_other
    rw [hc2, hg]
    omega
  have hp32 : s3.objectCBs (((c + 1) % gNumFrameResources + 1) % gNumFrameResources) =
      s2.objectCBs (((c + 1) % gNumFrameResources + 1) % gNumFrameResources) := by
    apply updatePass_objectCBs_other
    rw [hc2, hg]
    omega
  refine ⟨?_, ?_, ?_⟩
  · intro j hj
    rw [hN3]
    have hcover : j = (c + 1) % gNumFrameResources ∨
        j = ((c + 1) % gNumFrameResources + 1) % gNumFrameResources ∨
        j = (((c + 1) % gNumFrameResources + 1) % gNumFrameResources + 1) %
          gNumFrameResources := by
      rw [hg] at hj ⊢
      omega
    rcases hcover with rfl | rfl | rfl
    · rw [hp31, hp21, hw1]
    · rw [hp32, hw2]
    · exact hw3
  · rw [hN3, hke3, Option.map_some', hd3]
  · intro p hp
    interval_cases p
    · rw [hN1, hke1, Option.map_some', hd1]
      norm_num
    · rw [hN2, hke2, Option.map_some', hd2]
      norm_num
    · rw [hN3, hke3, Option.map_some', hd3]
      norm_num

/-- Three consecutive update passes propagate a material whose dirty
counter is `3` into all three frame resources' material buffers, leaving
its counter at `0` and decrementing it by exactly one per pass. -/
theorem materialCB_propagation (s : CBState) (m : Material)
    (k : Nat) (hke : s.materials[k]? = some m)
    (hd : m.numFramesDirty = 3)
    (hnod : (s.materials.map Material.matCBIndex).Nodup) :
    (∀ j, j < gNumFrameResources →
      (updatePassN 3 s).materialCBs j m.matCBIndex = matConstantsOf m) ∧
    ((updatePassN 3 s).materials[k]?).map Material.numFramesDirty = some 0 ∧
    (∀ p, p < 3 →
      ((updatePassN (p + 1) s).materials[k]?).map Material.numFramesDirty =
        some (3 - (p + 1) : Int)) := by
  have hmem : m ∈ s.materials := List.getElem?_mem hke
  set c := s.currFrameResourceIndex with hc
  set s1 := updatePass s with hs1
  set s2 := updatePass s1 with hs2
  set s3 := updatePass s2 with hs3
  have hN3 : updatePassN 3 s = s3 := rfl
  have hN2 : updatePassN 2 s = s2 := rfl
  have hN1 : updatePassN 1 s = s1 := rfl
  have hke1 : s1.materials[k]? = some (decMat m) := by
    rw [hs1, updatePass_materials, List.getElem?_map, hke, Option.map_some']
  have hke2 : s2.materials[k]? = some (decMat (decMat m)) := by
    rw [hs2, updatePass_materials, List.getElem?_map, hke1, Option.map_some']
  have hke3 : s3.materials[k]? = some (decMat (decMat (decMat m))) := by
    rw [hs3, updatePass_materials, List.getElem?_map, hke2, Option.map_some']
  have hd1 : (decMat m).numFramesDirty = 2 := by
    rw [decMat_dirty_pos m (by omega), hd]
    norm_num
  have hd2 : (decMat (decMat m)).numFramesDirty = 1 := by
    rw [decMat_dirty_pos _ (by omega), hd1]
    norm_num
  have hd3 : (decMat (decMat (decMat m))).numFramesDirty = 0 := by
    rw [decMat_dirty_pos _ (by omega), hd2]
    norm_num
  have hmem1 : decMat m ∈ s1.materials := by
    rw [hs1, updatePass_materials]
    exact List.mem_map_of_mem decMat hmem
  have hmem2 : decMat (decMat m) ∈ s2.materials := by
    rw [hs2, updatePass_materials]
    exact List.mem_map_of_mem decMat hmem1
  have hnod1 : (s1.materials.map Material.matCBIndex).Nodup := by
    rw [hs1, updatePass_matSlotMap]
    exact hnod
  have hnod2 : (s2.materials.map Material.matCBIndex).Nodup := by
    rw [hs2, updatePass_matSlotMap]
    exact hnod1
  have hc1 : s1.currFrameResourceIndex = (c + 1) % gNumFrameResources := rfl
  have hc2 : s2.currFrameResourceIndex =
      ((c + 1) % gNumFrameResources + 1) % gNumFrameResources := by
    rw [hs2, updatePass_curr, hc1]
  have hg : gNumFrameResources = 3 := rfl
  have hw1 : s1.materialCBs ((c + 1) % gNumFrameResources) m.matCBIndex =
      matConstantsOf m :=
    updatePass_materialCBs_write s m hmem (by omega) hnod
  have hw2 : s2.materialCBs (((c + 1) % gNumFrameResources + 1) % gNumFrameResources)
      m.matCBIndex = matConstantsOf m := by
    have := updatePass_materialCBs_write s1 (decMat m) hmem1 (by omega) hnod1
    rw [hc1, decMat_matCBIndex, matConstantsOf_decMat] at this
    exact this
  have hw3 : s3.materialCBs
      ((((c + 1) % gNumFrameResources + 1) % gNumFrameResources + 1) % gNumFrameResources)
      m.matCBIndex = matConstantsOf m := by
    have := updatePass_materialCBs_write s2 (decMat (decMat m)) hmem2 (by omega) hnod2
    rw [hc2, decMat_matCBIndex, decMat_matCBIndex,
      matConstantsOf_decMat, matConstantsOf_decMat] at this
    exact this
  have hp21 : s2.materialCBs ((c + 1) % gNumFrameResources) =
      s1.materialCBs ((c + 1) % gNumFrameResources) := by
    apply updatePass_materialCBs_other
    rw [hc1, hg]
    omega
  have hp31 : s3.materialCBs ((c + 1) % gNumFrameResources) =
      s2.materialCBs ((c + 1) % gNumFrameResources) := by
    apply updatePass_materialCBs_other
    rw [hc2, hg]
    omega
  have hp32 : s3.materialCBs (((c + 1) % gNumFrameResources + 1) % gNumFrameResources) =
      s2.materialCBs (((c + 1) % gNumFrameResources + 1) % gNumFrameResources) := by
    apply updatePass_materialCBs_other
    rw [hc2, hg]
    omega
  refine ⟨?_, ?_, ?_⟩
  · intro j hj
    rw [hN3]
    have hcover : j = (c + 1) % gNumFrameResources ∨
        j = ((c + 1) % gNumFrameResources + 1) % gNumFrameResources ∨
        j = (((c + 1) % gNumFrameResources + 1) % gNumFrameResources + 1) %
          gNumFrameResources := by
      rw [hg] at hj ⊢
      omega
    rcases hcover with rfl | rfl | rfl
    · rw [hp31, hp21, hw1]
    · rw [hp32, hw2]
    · exact hw3
  · rw [hN3, hke3, Option.map_some', hd3]
  · intro p hp
    interval_cases p
    · rw [hN1, hke1, Option.map_some', hd1]
      norm_num
    · rw [hN2, hke2, Option.map_some', hd2]
      norm_num
    · rw [hN3, hke3, Option.map_some', hd3]
      norm_num

/-- C2: For a render item (and a material) whose dirty counter is
`gNumFrameResources = 3`, after exactly 3 consecutive update passes with
no intervening mutation, each of the 3 frame resources' constant-buffer
copies at the entity's fixed slot holds the entity's latest constants
(world / tex-transform / mat-transform transposed), and the dirty counter
reads 0; each pass writes only into the current frame resource's buffer
and decrements the counter by exactly one.  Slots are assumed pairwise
distinct, which `BuildRenderItems`/`BuildMaterials` establish. -/
theorem dirty_counter_full_propagation (s : CBState)
    (e : RenderItem) (m : Material) (k km : Nat)
    (hke : s.items[k]? = some e) (hkm : s.materials[km]? = some m)
    (hd : e.numFramesDirty = 3) (hdm : m.numFramesDirty = 3)
    (hnod : (s.items.map RenderItem.objCBIndex).Nodup)
    (hnodm : (s.materials.map Material.matCBIndex).Nodup) :
    (∀ j, j < gNumFrameResources →
      (updatePassN 3 s).objectCBs j e.objCBIndex = objConstantsOf e ∧
      (updatePassN 3 s).materialCBs j m.matCBIndex = matConstantsOf m) ∧
    ((updatePassN 3 s).items[k]?).map RenderItem.numFramesDirty = some 0 ∧
    ((updatePassN 3 s).materials[km]?).map Material.numFramesDirty = some 0 ∧
    (∀ t : CBState, ∀ j, j ≠ (t.currFrameResourceIndex + 1) % gNumFrameResources →
      (updatePass t).objectCBs j = t.objectCBs j ∧
      (updatePass t).materialCBs j = t.materialCBs j) ∧
    (∀ p, p < 3 →
      ((updatePassN (p + 1) s).items[k]?).map RenderItem.numFramesDirty =
        some (3 - (p + 1) : Int) ∧
      ((updatePassN (p + 1) s).materials[km]?).map Material.numFramesDirty =
        some (3 - (p + 1) : Int)) := by
  obtain ⟨ho1, ho2, ho3⟩ := objectCB_propagation s e k hke hd hnod
  obtain ⟨hm1, hm2, hm3⟩ := materialCB_propagation s m km hkm hdm hnodm
  refine ⟨fun j hj => ⟨ho1 j hj, hm1 j hj⟩, ho2, hm2, ?_, fun p hp => ⟨ho3 p hp, hm3 p hp⟩⟩
  intro t j hj
  exact ⟨updatePass_objectCBs_other t j hj, updatePass_materialCBs_other t j hj⟩

/-- A concrete material used to witness the update-pass theorems. -/
def sampleMaterial : Material :=
  { matCBIndex := 0, diffuseSrvHeapIndex := 0, numFramesDirty := 3,
    diffuseAlbedo := (1, 1, 1, 1), fresnelR0 := (0, 0, 0), roughness := 0,
    matTransform := fun _ _ => 1 }

/-- A concrete render item used to witness the update-pass theorems. -/
def sampleItem : RenderItem :=
  { world := fun _ _ => 1, texTransform := fun _ _ => 0, numFramesDirty := 3,
    objCBIndex := 0, mat := sampleMaterial, geoVB := 0, geoIB := 0,
    primitiveType := 0, indexCount := 0, startIndexLocation := 0,
    baseVertexLocation := 0 }

/-- A concrete one-item, one-material state used to witness the
update-pass theorems. -/
def sampleCBState : CBState :=
  { currFrameResourceIndex := 0
    objectCBs := fun _ _ => ⟨fun _ _ => 0, fun _ _ => 0⟩
    materialCBs := fun _ _ => ⟨(0, 0, 0, 0), (0, 0, 0), 0, fun _ _ => 0⟩
    items := [sampleItem]
    materials := [sampleMaterial] }

theorem dirty_counter_full_propagation_witness :
    sampleCBState.items[0]? = some sampleItem ∧
    sampleCBState.materials[0]? = some sampleMaterial ∧
    sampleItem.numFramesDirty = 3 ∧
    sampleMaterial.numFramesDirty = 3 ∧
    (sampleCBState.items.map RenderItem.objCBIndex).Nodup ∧
    (sampleCBState.materials.map Material.matCBIndex).Nodup ∧
    (((updatePassN 3 sampleCBState).items[0]?).map RenderItem.numFramesDirty =
      some 0 ∧
     ((updatePassN 3 sampleCBState).materials[0]?).map Material.numFramesDirty =
      some 0) :=
  have h := dirty_counter_full_propagation sampleCBState sampleItem sampleMaterial 0 0
    rfl rfl rfl rfl (by decide) (by decide)
  ⟨rfl, rfl, rfl, rfl, by decide, by decide, h.2.1, h.2.2.1⟩

/-- The render-item mutation discipline documented at
`RenderItem::NumFramesDirty` (TexColumnsApp.cpp lines 36-40): "when we
modify obect data we should set `NumFramesDirty = gNumFrameResources` so
that each frame resource gets the update". -/
def mutateItem (e : RenderItem) (newW newT : Mat4) : RenderItem :=
  { e with
    world := newW
    texTransform := newT
    numFramesDirty := (gNumFrameResources : Int) }

/-- The state after re-mutating item `k` and material `km`. -/
def mutateState (s : CBState) (k : Nat) (newW newT : Mat4)
    (km : Nat) (newMT : Mat4) : CBState :=
  { s with
    items := match s.items[k]? with
      | some e => s.items.set k (mutateItem e newW newT)
      | none => s.items
    materials := match s.materials[km]? with
      | some m => s.materials.set km (mutateMaterial m newMT)
      | none => s.materials }

/-- C3: If a render item or material is mutated again (the item per the
`NumFramesDirty` discipline, the material as `AnimateMaterials` mutates
the water material) before its dirty counter reaches zero — in fact from
any prior counter value — the counter is reset to
`gNumFrameResources = 3`, and after 3 subsequent update passes every
frame resource's copy at the entity's slot holds exactly the constants
of the most recent mutation (per-slot last-write-wins; no copy is left
older than the mutation), and the counters read 0. -/
theorem remutation_resets_and_propagates (s : CBState)
    (e : RenderItem) (m : Material) (k km : Nat)
    (hke : s.items[k]? = some e) (hkm : s.materials[km]? = some m)
    (hnod : (s.items.map RenderItem.objCBIndex).Nodup)
    (hnodm : (s.materials.map Material.matCBIndex).Nodup)
    (newW newT newMT : Mat4) :
    (mutateItem e newW newT).numFramesDirty = 3 ∧
    (mutateMaterial m newMT).numFramesDirty = 3 ∧
    (∀ j, j < gNumFrameResources →
      (updatePassN 3 (mutateState s k newW newT km newMT)).objectCBs j
          (mutateItem e newW newT).objCBIndex =
        objConstantsOf (mutateItem e newW newT) ∧
      (updatePassN 3 (mutateState s k newW newT km newMT)).materialCBs j
          (mutateMaterial m newMT).matCBIndex =
        matConstantsOf (mutateMaterial m newMT)) ∧
    ((updatePassN 3 (mutateState s k newW newT km newMT)).items[k]?).map
      RenderItem.numFramesDirty = some 0 ∧
    ((updatePassN 3 (mutateState s k newW newT km newMT)).materials[km]?).map
      Material.numFramesDirty = some 0 := by
  have hlen : k < s.items.length := by
    by_contra hc
    rw [List.getElem?_eq_none (by omega)] at hke
    exact Option.noConfusion hke
  have hlenm : km < s.materials.length := by
    by_contra hc
    rw [List.getElem?_eq_none (by omega)] at hkm
    exact Option.noConfusion hkm
  have hitems : (mutateState s k newW newT km newMT).items =
      s.items.set k (mutateItem e newW newT) := by
    simp [mutateState, hke]
  have hmats : (mutateState s k newW newT km newMT).materials =
      s.materials.set km (mutateMaterial m newMT) := by
    simp [mutateState, hkm]
  have hke' : (mutateState s k newW newT km newMT).items[k]? =
      some (mutateItem e newW newT) := by
    rw [hitems]
    exact List.getElem?_set_eq_of_lt _ (by simpa using hlen)
  have hkm' : (mutateState s k newW newT km newMT).materials[km]? =
      some (mutateMaterial m newMT) := by
    rw [hmats]
    exact List.getElem?_set_eq_of_lt _ (by simpa using hlenm)
  have hnod' : ((mutateState s k newW newT km newMT).items.map
      RenderItem.objCBIndex).Nodup := by
    have hmap : (s.items.set k (mutateItem e newW newT)).map RenderItem.objCBIndex =
        s.items.map RenderItem.objCBIndex := by
      rw [List.map_set]
      have : (mutateItem e newW newT).objCBIndex = e.objCBIndex := rfl
      rw [this]
      apply List.ext_getElem?
      intro n
      rcases eq_or_ne k n with rfl | hne
      · rw [List.getElem?_set_eq_of_lt _ (by simpa using hlen), List.getElem?_map,
          hke, Option.map_some']
      · rw [List.getElem?_set_ne hne]
    rw [hitems, hmap]
    exact hnod
  have hnodm' : ((mutateState s k newW newT km newMT).materials.map
      Material.matCBIndex).Nodup := by
    have hmap : (s.materials.set km (mutateMaterial m newMT)).map Material.matCBIndex =
        s.materials.map Material.matCBIndex := by
      rw [List.map_set]
      have : (mutateMaterial m newMT).matCBIndex = m.matCBIndex := rfl
      rw [this]
      apply List.ext_getElem?
      intro n
      rcases eq_or_ne km n with rfl | hne
      · rw [List.getElem?_set_eq_of_lt _ (by simpa using hlenm), List.getElem?_map,
          hkm, Option.map_some']
      · rw [List.getElem?_set_ne hne]
    rw [hmats, hmap]
    exact hnodm
  have hd' : (mutateItem e newW newT).numFramesDirty = 3 := rfl
  have hdm' : (mutateMaterial m newMT).numFramesDirty = 3 := rfl
  obtain ⟨ho1, ho2, -⟩ := objectCB_propagation _ _ k hke' hd' hnod'
  obtain ⟨hm1, hm2, -⟩ := materialCB_propagation _ _ km hkm' hdm' hnodm'
  exact ⟨hd', hdm', fun j hj => ⟨ho1 j hj, hm1 j hj⟩, ho2, hm2⟩

theorem remutation_resets_and_propagates_witness :
    sampleCBState.items[0]? = some sampleItem ∧
    sampleCBState.materials[0]? = some sampleMaterial ∧
    (sampleCBState.items.map RenderItem.objCBIndex).Nodup ∧
    (sampleCBState.materials.map Material.matCBIndex).Nodup ∧
    ((updatePassN 3
        (mutateState sampleCBState 0 (fun _ _ => 2) (fun _ _ => 2) 0
          (fun _ _ => 2))).materials[0]?).map
      Material.numFramesDirty = some 0 :=
  have h := remutation_resets_and_propagates sampleCBState sampleItem sampleMaterial
    0 0 rfl rfl (by decide) (by decide) (fun _ _ => 2) (fun _ _ => 2) (fun _ _ => 2)
  ⟨rfl, rfl, by decide, by decide, h.2.2.2.2⟩

/-! ## Wave simulation surface
(TexColumnsApp::UpdateWaves lines 522-560; the `Waves` class itself lives
in Waves.h/Waves.cpp, which are not part of src/) -/

/-- The wave height field: an `R × C` grid of heights (the `y` components
of `mCurrSolution`). -/
structure WavesGrid where
  numRows : Nat
  numCols : Nat
  height : Nat → Nat → ℚ

/-- Modelled from the spec: `Waves::Disturb(i, j, magnitude)`
(Waves.h/Waves.cpp are not under src/; only the call site in
`UpdateWaves` is).  Spec §4.3: "adds a localized perturbation to the
height field at the given grid cell and its four neighbors (cross
pattern)"; "must reject or clamp out-of-range row/col rather than
corrupt adjacent memory".  The full magnitude lands on the center cell
and half of it on each of the four cross neighbors; a (row, col) whose
cross pattern would leave the grid is rejected, leaving the field
unchanged. -/
def disturb (w : WavesGrid) (i j : Nat) (m : ℚ) : WavesGrid :=
  if 1 ≤ i ∧ i + 2 ≤ w.numRows ∧ 1 ≤ j ∧ j + 2 ≤ w.numCols then
    { w with height := fun r c =>
        if r = i ∧ c = j then w.height r c + m
        else if (r = i + 1 ∧ c = j) ∨ (r + 1 = i ∧ c = j) ∨
                (r = i ∧ c = j + 1) ∨ (r = i ∧ c + 1 = j) then
          w.height r c + m / 2
        else w.height r c }
  else w

/-- C7: For every call `disturb(i, j, m)` with `i`, `j` within
`[4, dim-5]` (the margin the caller `UpdateWaves` draws from) and a
nonzero magnitude, exactly the 5 cross-pattern grid cells (center plus
its four neighbors, which are pairwise distinct) change, every other cell
is left unchanged, and an out-of-range row/col is rejected, leaving the
whole field unchanged. -/
theorem disturb_exact_cross (w : WavesGrid) (i j : Nat) (m : ℚ)
    (hi1 : 4 ≤ i) (hi2 : i + 5 ≤ w.numRows)
    (hj1 : 4 ≤ j) (hj2 : j + 5 ≤ w.numCols) (hm : m ≠ 0) :
    (∀ r c, ((disturb w i j m).height r c ≠ w.height r c ↔
      ((r, c) = (i, j) ∨ (r, c) = (i + 1, j) ∨ (r, c) = (i - 1, j) ∨
       (r, c) = (i, j + 1) ∨ (r, c) = (i, j - 1)))) ∧
    [(i, j), (i + 1, j), (i - 1, j), (i, j + 1), (i, j - 1)].Nodup ∧
    (∀ i' j' m', ¬ (1 ≤ i' ∧ i' + 2 ≤ w.numRows ∧ 1 ≤ j' ∧ j' + 2 ≤ w.numCols) →
      disturb w i' j' m' = w) := by
  have hij : 1 ≤ i ∧ i + 2 ≤ w.numRows ∧ 1 ≤ j ∧ j + 2 ≤ w.numCols :=
    ⟨by omega, by omega, by omega, by omega⟩
  refine ⟨?_, ?_, ?_⟩
  · intro r c
    rw [disturb, if_pos hij]
    dsimp only
    by_cases h1 : r = i ∧ c = j
    · obtain ⟨rfl, rfl⟩ := h1
      rw [if_pos ⟨rfl, rfl⟩]
      constructor
      · intro _
        exact Or.inl rfl
      · intro _ hEq
        apply hm
        linarith
    · rw [if_neg h1]
      by_cases h2 : (r = i + 1 ∧ c = j) ∨ (r + 1 = i ∧ c = j) ∨
          (r = i ∧ c = j + 1) ∨ (r = i ∧ c + 1 = j)
      · rw [if_pos h2]
        have hm2 : m / 2 ≠ 0 := by
          intro h0
          apply hm
          linarith
        constructor
        · intro _
          simp only [Prod.mk.injEq]
          omega
        · intro _ hEq
          apply hm2
          linarith
      · rw [if_neg h2]
        constructor
        · intro hne
          exact absurd rfl hne
        · intro hfive
          exfalso
          simp only [Prod.mk.injEq] at hfive
          omega
  · simp only [List.nodup_cons, List.mem_cons, List.mem_singleton,
      List.not_mem_nil, or_false, Prod.mk.injEq, not_or, List.nodup_nil,
      and_true, true_and, not_false_iff]
    omega
  · intro i' j' m' hr
    rw [disturb, if_neg hr]

/-- A concrete 128 × 128 grid (the dimensions `Initialize` passes to the
`Waves` constructor) used to witness the disturb theorem. -/
def sampleWavesGrid : WavesGrid :=
  { numRows := 128, numCols := 128, height := fun _ _ => 0 }

theorem disturb_exact_cross_witness :
    (4 ≤ 4 ∧ 4 + 5 ≤ sampleWavesGrid.numRows ∧ 4 + 5 ≤ sampleWavesGrid.numCols ∧
      (1 : ℚ) ≠ 0) ∧
    (∀ i' j' m', ¬ (1 ≤ i' ∧ i' + 2 ≤ sampleWavesGrid.numRows ∧ 1 ≤ j' ∧
        j' + 2 ≤ sampleWavesGrid.numCols) →
      disturb sampleWavesGrid i' j' m' = sampleWavesGrid) :=
  ⟨⟨by decide, by decide, by decide, by decide⟩,
   (disturb_exact_cross sampleWavesGrid 4 4 1 (by decide) (by decide) (by decide)
     (by decide) (by decide)).2.2⟩

/-- Source: `struct Vertex` (FrameResource.h as used by UpdateWaves):
position, normal, texture coordinates. -/
structure Vertex where
  pos : ℚ × ℚ × ℚ
  normal : ℚ × ℚ × ℚ
  texC : ℚ × ℚ

/-- The interface of the `Waves` object that `UpdateWaves` consumes:
`VertexCount()`, `Position(i)`, `Normal(i)`, `Width()`, `Depth()`. -/
structure WavesView where
  vertexCount : Nat
  position : Nat → ℚ × ℚ × ℚ
  normal : Nat → ℚ × ℚ × ℚ
  width : ℚ
  depth : ℚ

/-- Source: the loop body of `TexColumnsApp::UpdateWaves` (lines 539-557):
`v.Pos = mWaves->Position(i); v.Normal = mWaves->Normal(i);
v.TexC.x = 0.5f + v.Pos.x / mWaves->Width();
v.TexC.y = 0.5f - v.Pos.z / mWaves->Depth();`. -/
def wavesVertexOf (w : WavesView) (i : Nat) : Vertex :=
  let p := w.position i
  { pos := p, normal := w.normal i
    texC := (1 / 2 + p.1 / w.width, 1 / 2 - p.2.2 / w.depth) }

/-- The first `n` iterations of the `UpdateWaves` copy loop:
`currWavesVB->CopyData(i, v)` for `i = 0 .. n-1` in ascending order. -/
def updateWavesVBAux (w : WavesView) (vb : Nat → Vertex) : Nat → (Nat → Vertex)
  | 0 => vb
  | n + 1 => copyData (updateWavesVBAux w vb n) n (wavesVertexOf w n)

/-- Source: the full copy loop of `TexColumnsApp::UpdateWaves`:
`for (int i = 0; i < mWaves->VertexCount(); ++i) { ...; currWavesVB->CopyData(i, v); }`. -/
def updateWavesVB (w : WavesView) (vb : Nat → Vertex) : Nat → Vertex :=
  updateWavesVBAux w vb w.vertexCount

theorem updateWavesVBAux_spec (w : WavesView) (vb : Nat → Vertex) (n i : Nat) :
    updateWavesVBAux w vb n i = if i < n then wavesVertexOf w i else vb i := by
  induction n with
  | zero => simp [updateWavesVBAux]
  | succ n ih =>
    simp only [updateWavesVBAux, copyData]
    rcases Nat.lt_trichotomy i n with h | rfl | h
    · rw [if_neg (by omega), ih, if_pos h, if_pos (by omega)]
    · rw [if_pos rfl, if_pos (by omega)]
    · rw [if_neg (by omega), ih, if_neg (by omega), if_neg (by omega)]

/-- C8: Each frame, the wave update rewrites the current frame resource's
dynamic vertex buffer in full — one write per vertex index from `0` to
`vertexCount - 1`, no dirty tracking — storing for each vertex the
simulation's position and normal, and texture coordinates derived from
position by the linear remap `TexC.x = 0.5 + Pos.x / width`,
`TexC.y = 0.5 - Pos.z / depth`; indices at or beyond the vertex count are
untouched. -/
theorem update_waves_full_rewrite (w : WavesView) (vb : Nat → Vertex) (i : Nat) :
    updateWavesVB w vb i =
      if i < w.vertexCount then
        { pos := w.position i, normal := w.normal i
          texC := (1 / 2 + (w.position i).1 / w.width,
                   1 / 2 - (w.position i).2.2 / w.depth) }
      else vb i := by
  rw [updateWavesVB, updateWavesVBAux_spec]
  rfl

/-! ## Draw submission
(TexColumnsApp::Draw lines 268-345, TexColumnsApp::DrawRenderItems
lines 2272-2301)

The command-list recording is embedded as a trace of commands. -/

/-- The command-list calls recorded by `Draw` / `DrawRenderItems`.
GPU virtual addresses and descriptor handles are byte offsets from
opaque base values, modelled as naturals. -/
inductive Cmd where
  | other (tag : String)
  | setPipelineState (psoName : String)
  | setVertexBuffers (vbv : Nat)
  | setIndexBuffer (ibv : Nat)
  | setPrimitiveTopology (t : Nat)
  | setGraphicsRootDescriptorTable (paramIndex : Nat) (handle : Nat)
  | setGraphicsRootConstantBufferView (paramIndex : Nat) (addr : Nat)
  | drawIndexedInstanced (indexCount instanceCount startIndex : Nat)
      (baseVertex : Int) (startInstance : Nat)
  deriving DecidableEq

/-- Modelled from the spec: `d3dUtil::CalcConstantBufferByteSize`
(Common/d3dUtil.h is not under src/): round the element size up to the
minimum constant-buffer alignment of 256 bytes (spec §9: "the
stride/alignment rule (round up to the target platform's minimum
constant-buffer alignment)"). -/
def calcConstantBufferByteSize (byteSize : Nat) : Nat :=
  (byteSize + 255) / 256 * 256

/-- The ambient values `DrawRenderItems` reads: the current frame
resource's buffer base addresses, the descriptor heap start and
increment, and the raw element sizes of the two constant-buffer
structs. -/
structure DrawConfig where
  objConstantsSize : Nat
  matConstantsSize : Nat
  objectCBAddr : Nat
  matCBAddr : Nat
  passCBAddr : Nat
  srvHeapStart : Nat
  cbvSrvDescriptorSize : Nat

/-- Source: the per-item body of `TexColumnsApp::DrawRenderItems`
(lines 2280-2300), transcribed call for call. -/
def drawRenderItems (cfg : DrawConfig) : List RenderItem → List Cmd
  | [] => []
  | ri :: rest =>
    Cmd.setVertexBuffers ri.geoVB ::
    Cmd.setIndexBuffer ri.geoIB ::
    Cmd.setPrimitiveTopology ri.primitiveType ::
    Cmd.setGraphicsRootDescriptorTable 0
      (cfg.srvHeapStart + ri.mat.diffuseSrvHeapIndex * cfg.cbvSrvDescriptorSize) ::
    Cmd.setGraphicsRootConstantBufferView 1
      (cfg.objectCBAddr + ri.objCBIndex * calcConstantBufferByteSize cfg.objConstantsSize) ::
    Cmd.setGraphicsRootConstantBufferView 3
      (cfg.matCBAddr + ri.mat.matCBIndex * calcConstantBufferByteSize cfg.matConstantsSize) ::
    Cmd.drawIndexedInstanced ri.indexCount 1 ri.startIndexLocation
      ri.baseVertexLocation 0 ::
    drawRenderItems cfg rest

/-- Source: `enum class RenderLayer` (TexColumnsApp.cpp lines 57-65).
The constructor for the solid layer is spelled `opaq` because its source
spelling is a reserved Lean keyword. -/
inductive RenderLayer where
  | opaq
  | transparent
  | alphaTested
  | alphaTestedTreeSprites
  deriving DecidableEq

/-- Source: the command recording of `TexColumnsApp::Draw`
(lines 268-330): reset onto the "opaque" pipeline state, record the
fixed-function setup, bind the pass constants, then submit the four
layers in the fixed order with their pipeline states. -/
def draw (cfg : DrawConfig) (ritemLayer : RenderLayer → List RenderItem) : List Cmd :=
  Cmd.setPipelineState "opaque" ::
  Cmd.other "RSSetViewports" ::
  Cmd.other "RSSetScissorRects" ::
  Cmd.other "ResourceBarrier PRESENT to RENDER_TARGET" ::
  Cmd.other "ClearRenderTargetView" ::
  Cmd.other "ClearDepthStencilView" ::
  Cmd.other "OMSetRenderTargets" ::
  Cmd.other "SetDescriptorHeaps" ::
  Cmd.other "SetGraphicsRootSignature" ::
  Cmd.setGraphicsRootConstantBufferView 2 cfg.passCBAddr ::
  (drawRenderItems cfg (ritemLayer RenderLayer.opaq) ++
    Cmd.setPipelineState "alphaTested" ::
    (drawRenderItems cfg (ritemLayer RenderLayer.alphaTested) ++
      Cmd.setPipelineState "treeSprites" ::
      (drawRenderItems cfg (ritemLayer RenderLayer.alphaTestedTreeSprites) ++
        Cmd.setPipelineState "transparent" ::
        (drawRenderItems cfg (ritemLayer RenderLayer.transparent) ++
          [Cmd.other "ResourceBarrier RENDER_TARGET to PRESENT"]))))

/-- Recognizes the indexed draw calls in a trace. -/
def isDrawCall : Cmd → Bool
  | Cmd.drawIndexedInstanced _ _ _ _ _ => true
  | _ => false

/-- Recognizes the pipeline-state selections in a trace. -/
def isSetPSO : Cmd → Bool
  | Cmd.setPipelineState _ => true
  | _ => false

/-- The single indexed draw call a render item produces. -/
def drawCallOf (ri : RenderItem) : Cmd :=
  Cmd.drawIndexedInstanced ri.indexCount 1 ri.startIndexLocation ri.baseVertexLocation 0

theorem drawRenderItems_drawCalls (cfg : DrawConfig) (ritems : List RenderItem) :
    (drawRenderItems cfg ritems).filter isDrawCall = ritems.map drawCallOf := by
  induction ritems with
  | nil => rfl
  | cons ri rest ih =>
    simp only [drawRenderItems, List.filter_cons, List.map_cons]
    simp [isDrawCall, drawCallOf, ih]

theorem drawRenderItems_no_pso (cfg : DrawConfig) (ritems : List RenderItem) :
    (drawRenderItems cfg ritems).filter isSetPSO = [] := by
  induction ritems with
  | nil => rfl
  | cons ri rest ih =>
    simp only [drawRenderItems, List.filter_cons]
    simp [isSetPSO, ih]

/-- C5: In every frame, for any contents of the four layer lists
(whatever registration order the scene builder used), the draw calls of
`Draw`'s command trace are exactly those of the layers concatenated in
the fixed order opaque, alpha-tested, alpha-tested tree-sprite,
transparent — each layer kept in registration order with no per-item
depth sorting, the transparent layer last — and the pipeline states are
selected in that same fixed order. -/
theorem draw_layer_order (cfg : DrawConfig) (L : RenderLayer → List RenderItem) :
    (draw cfg L).filter isDrawCall =
      (L RenderLayer.opaq ++ L RenderLayer.alphaTested ++
        L RenderLayer.alphaTestedTreeSprites ++ L RenderLayer.transparent).map
        drawCallOf ∧
    (draw cfg L).filter isSetPSO =
      [Cmd.setPipelineState "opaque", Cmd.setPipelineState "alphaTested",
       Cmd.setPipelineState "treeSprites", Cmd.setPipelineState "transparent"] := by
  constructor
  · simp only [draw, List.filter_cons, List.filter_append, List.map_append,
      drawRenderItems_drawCalls]
    simp [isDrawCall]
  · simp only [draw, List.filter_cons, List.filter_append,
      drawRenderItems_no_pso]
    simp [isSetPSO]

/-- C6: `DrawRenderItems` processes its layer's render items in
registration order, and for each item emits exactly the seven calls of
the loop body: bind the item's vertex/index buffer views and primitive
topology, offset the texture descriptor table by the material's
descriptor index times the descriptor increment, bind the object- and
material-constant buffer regions at byte offset slot index times the
256-byte-rounded element stride, and issue exactly one indexed draw with
the item's index count, start index and base vertex. -/
theorem draw_render_items_bindings (cfg : DrawConfig) (ritems : List RenderItem) :
    drawRenderItems cfg ritems = ritems.flatMap (fun ri =>
      [Cmd.setVertexBuffers ri.geoVB,
       Cmd.setIndexBuffer ri.geoIB,
       Cmd.setPrimitiveTopology ri.primitiveType,
       Cmd.setGraphicsRootDescriptorTable 0
         (cfg.srvHeapStart + ri.mat.diffuseSrvHeapIndex * cfg.cbvSrvDescriptorSize),
       Cmd.setGraphicsRootConstantBufferView 1
         (cfg.objectCBAddr + ri.objCBIndex * calcConstantBufferByteSize cfg.objConstantsSize),
       Cmd.setGraphicsRootConstantBufferView 3
         (cfg.matCBAddr + ri.mat.matCBIndex * calcConstantBufferByteSize cfg.matConstantsSize),
       Cmd.drawIndexedInstanced ri.indexCount 1 ri.startIndexLocation
         ri.baseVertexLocation 0]) ∧
    (drawRenderItems cfg ritems).filter isDrawCall = ritems.map drawCallOf := by
  refine ⟨?_, drawRenderItems_drawCalls cfg ritems⟩
  induction ritems with
  | nil => rfl
  | cons ri rest ih =>
    simp only [drawRenderItems, List.flatMap_cons]
    rw [ih]
    rfl

/-! ## Scene-setup render-item registry
(TexColumnsApp::BuildRenderItems lines 1607-2270,
TexColumnsApp::BuildFrameResources lines 1526-1533)

For the registry claims only the identity of each item, the order of
`ObjCBIndex` assignment (`objCBIndex++` at creation) and the layer
pushes matter, so an item is represented by its assigned `ObjCBIndex`
(which is also its position in `mAllRitems`, since every created item is
appended exactly once in creation order); world matrices, materials and
geometry references are irrelevant to these claims and elided. -/

/-- The running state of `BuildRenderItems`: the `objCBIndex` counter,
`mAllRitems` (as the list of assigned indices in push order) and
`mRitemLayer`. -/
structure BuildState where
  nextObjCBIndex : Nat
  allRitems : List Nat
  ritemLayer : RenderLayer → List Nat

/-- Create one render item (`ObjCBIndex = objCBIndex++`), push it onto
`mRitemLayer[layer]`, then move it into `mAllRitems`. -/
def addItemTo (l : RenderLayer) (s : BuildState) : BuildState :=
  { nextObjCBIndex := s.nextObjCBIndex + 1
    allRitems := s.allRitems ++ [s.nextObjCBIndex]
    ritemLayer := fun l' =>
      if l' = l then s.ritemLayer l' ++ [s.nextObjCBIndex] else s.ritemLayer l' }

/-- Create one render item with no explicit layer push (the sculpture,
ornamental and column items rely on the trailing catch-all loop). -/
def addItemNoLayer (s : BuildState) : BuildState :=
  { s with
    nextObjCBIndex := s.nextObjCBIndex + 1
    allRitems := s.allRitems ++ [s.nextObjCBIndex] }

/-- One iteration of an ornamental `for (int i = 0; i < 2; ++i)` loop:
four items (two wedges, two boxes), no explicit layer push. -/
def ornamentalLoopBody (s : BuildState) : BuildState :=
  addItemNoLayer (addItemNoLayer (addItemNoLayer (addItemNoLayer s)))

/-- One iteration of the trailing cylinder loop: two items, no explicit
layer push. -/
def cylinderLoopBody (s : BuildState) : BuildState :=
  addItemNoLayer (addItemNoLayer s)

/-- Source: the trailing loop of `BuildRenderItems` (lines 2264-2269):
`int count = 0; for (auto& e : mAllRitems) { if (count++ < 4) continue;
mRitemLayer[(int)RenderLayer::O ...].push_back(e.get()); }` — every item
at position ≥ 4 of `mAllRitems` is appended to the solid layer,
regardless of any layer it was already pushed into. -/
def catchAllSolid (s : BuildState) : BuildState :=
  { s with
    ritemLayer := fun l =>
      if l = RenderLayer.opaq then s.ritemLayer l ++ s.allRitems.drop 4
      else s.ritemLayer l }

/-- Source: `TexColumnsApp::BuildRenderItems` (lines 1607-2270), block by
block in creation order. -/
def buildRenderItemsResult : BuildState :=
  let s : BuildState := { nextObjCBIndex := 0, allRitems := [], ritemLayer := fun _ => [] }
  -- wavesRitem → Transparent
  let s := addItemTo RenderLayer.transparent s
  -- wallRitem → solid layer
  let s := addItemTo RenderLayer.opaq s
  -- boxRitem, boxRitem1, boxRitem2, boxRitem3, boxRitem4, boxRitem6,
  -- boxRitem5, boxRitem7, boxRitem8, boxRitem9, boxRitem10, boxRitem11
  -- → AlphaTested (twelve in creation order)
  let s := addItemTo RenderLayer.alphaTested s
  let s := addItemTo RenderLayer.alphaTested s
  let s := addItemTo RenderLayer.alphaTested s
  let s := addItemTo RenderLayer.alphaTested s
  let s := addItemTo RenderLayer.alphaTested s
  let s := addItemTo RenderLayer.alphaTested s
  let s := addItemTo RenderLayer.alphaTested s
  let s := addItemTo RenderLayer.alphaTested s
  let s := addItemTo RenderLayer.alphaTested s
  let s := addItemTo RenderLayer.alphaTested s
  let s := addItemTo RenderLayer.alphaTested s
  let s := addItemTo RenderLayer.alphaTested s
  -- sculpture: CylRitem, torusRitem, coneRitem, diamondRitem (no layer)
  let s := addItemNoLayer s
  let s := addItemNoLayer s
  let s := addItemNoLayer s
  let s := addItemNoLayer s
  -- front ornamental loop (i = 0, 1)
  let s := ornamentalLoopBody (ornamentalLoopBody s)
  -- left ornamental loop (i = 0, 1)
  let s := ornamentalLoopBody (ornamentalLoopBody s)
  -- right ornamental loop (i = 0, 1)
  let s := ornamentalLoopBody (ornamentalLoopBody s)
  -- back ornamental loop (i = 0, 1)
  let s := ornamentalLoopBody (ornamentalLoopBody s)
  -- gridRitem → solid layer
  let s := addItemTo RenderLayer.opaq s
  -- treeSpritesRitem → AlphaTestedTreeSprites
  let s := addItemTo RenderLayer.alphaTestedTreeSprites s
  -- cylinder loop (i = 0, 1): leftCylRitem, rightCylRitem
  let s := cylinderLoopBody (cylinderLoopBody s)
  -- trailing catch-all loop
  catchAllSolid s

/-- Source: `struct FrameResource` constructor arguments
(FrameResource.h): per-frame buffer element counts. -/
structure FrameResourceSizes where
  passCount : Nat
  objectCount : Nat
  materialCount : Nat
  waveVertCount : Nat
  deriving DecidableEq

/-- Source: `TexColumnsApp::BuildFrameResources` (lines 1526-1533):
`gNumFrameResources` frame resources, each sized with one pass slot, one
object slot per render item and one material slot per material. -/
def buildFrameResources (objCount matCount waveCount : Nat) :
    List FrameResourceSizes :=
  List.replicate gNumFrameResources ⟨1, objCount, matCount, waveCount⟩

/-- How many times item `id` occurs across the four layer lists. -/
def layerOccurrences (id : Nat) : Nat :=
  (buildRenderItemsResult.ritemLayer RenderLayer.opaq).count id +
  (buildRenderItemsResult.ritemLayer RenderLayer.transparent).count id +
  (buildRenderItemsResult.ritemLayer RenderLayer.alphaTested).count id +
  (buildRenderItemsResult.ritemLayer RenderLayer.alphaTestedTreeSprites).count id

/-- C4 counterexample: the layer lists do not partition the render items.
The grid item (registration position 50, explicitly pushed into the
solid layer) is appended to the solid layer a second time by the
trailing catch-all loop, and item 4 (one of the alpha-tested wall boxes)
appears in both the alpha-tested and the solid layer. -/
theorem layer_partition_counterexample :
    (buildRenderItemsResult.ritemLayer RenderLayer.opaq).count 50 = 2 ∧
    4 ∈ buildRenderItemsResult.ritemLayer RenderLayer.alphaTested ∧
    4 ∈ buildRenderItemsResult.ritemLayer RenderLayer.opaq := by decide

/-- C4 (amended): every render item built at scene-setup time belongs to
at least one layer, but the trailing catch-all loop additionally appends
every item at registration position ≥ 4 to the solid layer, so the
twelve explicitly-placed items among them are duplicated: items 4–13
appear in both the alpha-tested and the solid layer, the tree-sprite
item 51 appears in both the billboard and the solid layer, and the grid
item 50 appears twice in the solid layer; every other item lies in
exactly one layer. -/
theorem layer_coverage_amended :
    ∀ id ∈ buildRenderItemsResult.allRitems,
      layerOccurrences id =
        (if (4 ≤ id ∧ id ≤ 13) ∨ id = 50 ∨ id = 51 then 2 else 1) := by decide

theorem layer_coverage_amended_witness :
    0 ∈ buildRenderItemsResult.allRitems ∧ layerOccurrences 0 = 1 :=
  ⟨by decide, (layer_coverage_amended 0 (by decide)).trans (by decide)⟩

/-- C9: after scene setup every render item's `ObjCBIndex` is distinct —
the assigned indices are exactly the consecutive values
`0 .. mAllRitems.size() - 1` — and each is strictly below the
object-constant-buffer element count of every frame resource, which
`BuildFrameResources` sizes with one slot per render item, so every
object-constant write and draw-time byte-offset computation stays in
bounds. -/
theorem objcb_indices_consecutive_in_bounds :
    buildRenderItemsResult.allRitems =
      List.range buildRenderItemsResult.allRitems.length ∧
    buildRenderItemsResult.allRitems.Nodup ∧
    (∀ matCount waveCount : Nat,
      ∀ fr ∈ buildFrameResources buildRenderItemsResult.allRitems.length
          matCount waveCount,
        ∀ id ∈ buildRenderItemsResult.allRitems, id < fr.objectCount) := by
  have hb : ∀ id ∈ buildRenderItemsResult.allRitems,
      id < buildRenderItemsResult.allRitems.length := by decide
  refine ⟨by decide, by decide, ?_⟩
  intro mc wc fr hfr id hid
  have hfr' : fr = ⟨1, buildRenderItemsResult.allRitems.length, mc, wc⟩ :=
    List.eq_of_mem_replicate (by simpa [buildFrameResources] using hfr)
  rw [hfr']
  exact hb id hid

theorem objcb_indices_consecutive_in_bounds_witness :
    (⟨1, buildRenderItemsResult.allRitems.length, 7, 16384⟩ : FrameResourceSizes) ∈
      buildFrameResources buildRenderItemsResult.allRitems.length 7 16384 ∧
    0 ∈ buildRenderItemsResult.allRitems ∧
    0 < (⟨1, buildRenderItemsResult.allRitems.length, 7, 16384⟩ :
        FrameResourceSizes).objectCount :=
  ⟨by decide, by decide,
   objcb_indices_consecutive_in_bounds.2.2 7 16384 _ (by decide) 0 (by decide)⟩

end TexColumns
